import Mathlib

/-!
Verification of the AutoAD core orchestration engine.

Shallow embedding of `ad_command_runner.py` (JobStore, CommandRunner) and
`orchestrator_and_parsers.py` (SessionStore, AutoExploitPolicy, Orchestrator)
into Lean 4, together with theorems checking the natural-language
specification against that embedding.

Modelling conventions:
- Python dicts used as JSON-ish open mappings (`meta`, session `details`)
  are embedded as association lists over a `Value` type; Python dict
  assignment `d[k] = v` keeps the key's position when present and appends
  otherwise, which `setKey` mirrors.
- Timestamps (`time.time()`) are embedded as integers; only ordering and
  Python truthiness (`0`/`0.0` falsy) of timestamps matter to the code.
  Each stateful operation takes the current time `now` explicitly.
- SQLite row ids (AUTOINCREMENT) are embedded as a counter starting at 1
  carried in the store; `ORDER BY id ASC` is embedded as an insertion sort
  on the id field.
- The external process run by `CommandRunner.run_job` is abstracted by a
  `ProcBehavior` input describing what the OS does (spawn failure /
  timeout firing / completion), and the process-control actions the runner
  performs are recorded as an explicit `Effect` trace.
-/

namespace AutoAD

/-- JSON-ish values, for job `meta` fields and session `details`. -/
inductive Value where
  | null
  | bool (b : Bool)
  | int (n : Int)
  | str (s : String)
  | arr (items : List Value)
  | obj (fields : List (String × Value))

/-- Python dict assignment `d[k] = v` on an association list: overwrite in
place when the key is present, append otherwise. -/
def setKey (d : List (String × Value)) (k : String) (v : Value) :
    List (String × Value) :=
  if d.any (fun p => p.1 == k) then
    d.map (fun p => if p.1 == k then (k, v) else p)
  else
    d ++ [(k, v)]

/-- Modelled from the spec: shallow merge of two meta mappings — "new keys
added, existing keys at the top level overwritten", keys absent from the
new mapping keep their previous values.  Used only to compare the spec's
description of `update_status` against the code (claim C3). -/
def mergeShallow (old new : List (String × Value)) : List (String × Value) :=
  new.foldl (fun acc p => setKey acc p.1 p.2) old

/-- One row of the `jobs` table (`DB_SCHEMA` in ad_command_runner.py). -/
structure Job where
  id : Nat
  created_at : Int
  updated_at : Int
  name : String
  command : List String
  cwd : String
  env : List (String × String)
  status : String
  exit_code : Option Int
  meta : List (String × Value)

/-- One row of the `outputs` table. -/
structure OutputRec where
  id : Nat
  job_id : Nat
  created_at : Int
  source : String
  line : String

/-- The SQLite-backed `JobStore`: both tables plus the AUTOINCREMENT
counters (SQLite assigns ids 1, 2, ... in insertion order). -/
structure JobStore where
  jobs : List Job
  outputs : List OutputRec
  nextJobId : Nat
  nextOutputId : Nat

/-- A fresh store, as produced by `JobStore.__init__` on a new database. -/
def JobStore.empty : JobStore :=
  { jobs := [], outputs := [], nextJobId := 1, nextOutputId := 1 }

/-- `JobStore.create_job`: inserts a pending job (`status='pending'`,
`exit_code=NULL`); `cwd or ''`, `env or {}`, `meta or {}` defaulting.
Returns the new store and `cur.lastrowid`. -/
def create_job (st : JobStore) (now : Int) (name : String)
    (command : List String) (cwd : Option String)
    (env : Option (List (String × String)))
    (meta : Option (List (String × Value))) : JobStore × Nat :=
  let j : Job :=
    { id := st.nextJobId, created_at := now, updated_at := now, name := name,
      command := command, cwd := cwd.getD "", env := env.getD [],
      status := "pending", exit_code := none, meta := meta.getD [] }
  ({ st with jobs := st.jobs ++ [j], nextJobId := st.nextJobId + 1 },
   st.nextJobId)

/-- The row update performed by both UPDATE statements of
`update_job_status`: status, exit_code and updated_at are always written
(the `exit_code=?` placeholder receives the parameter, NULL when the
Python argument is None); meta is rewritten only when a meta mapping was
passed. -/
def applyUpdate (now : Int) (status : String) (exit_code : Option Int)
    (meta : Option (List (String × Value))) (j : Job) : Job :=
  match meta with
  | some m => { j with status := status, exit_code := exit_code,
                       updated_at := now, meta := m }
  | none => { j with status := status, exit_code := exit_code,
                     updated_at := now }

/-- `JobStore.update_job_status(job_id, status, exit_code=None, meta=None)`:
`UPDATE jobs SET status=?, exit_code=?, updated_at=?[, meta=?] WHERE id=?`. -/
def update_job_status (st : JobStore) (now : Int) (job_id : Nat)
    (status : String) (exit_code : Option Int)
    (meta : Option (List (String × Value))) : JobStore :=
  { st with jobs :=
      st.jobs.map (fun j => if j.id == job_id then
        applyUpdate now status exit_code meta j else j) }

/-- `JobStore.append_output(job_id, source, line)`: inserts one row into
`outputs` with a fresh AUTOINCREMENT id and `created_at = now`. -/
def append_output (st : JobStore) (now : Int) (job_id : Nat)
    (source line : String) : JobStore :=
  { st with
      outputs := st.outputs ++
        [{ id := st.nextOutputId, job_id := job_id, created_at := now,
           source := source, line := line }],
      nextOutputId := st.nextOutputId + 1 }

/-- `JobStore.get_job(job_id)`: `SELECT * FROM jobs WHERE id=?`, first
matching row or None. -/
def get_job (st : JobStore) (job_id : Nat) : Option Job :=
  st.jobs.find? (fun j => j.id == job_id)

/-- Insertion step of the embedding of `ORDER BY id ASC`. -/
def insertById (o : OutputRec) : List OutputRec → List OutputRec
  | [] => [o]
  | x :: xs => if o.id ≤ x.id then o :: x :: xs else x :: insertById o xs

/-- Sort output rows by ascending id (`ORDER BY id ASC`). -/
def sortById (l : List OutputRec) : List OutputRec :=
  l.foldr insertById []

/-- `JobStore.fetch_outputs(job_id, since=None)`.  The Python guard is
`if since:`, so `None` and the falsy timestamps `0`/`0.0` skip the
`created_at>?` filter. -/
def fetch_outputs (st : JobStore) (job_id : Nat) (since : Option Int) :
    List OutputRec :=
  match since with
  | some s =>
      if s ≠ 0 then
        sortById (st.outputs.filter
          (fun o => o.job_id == job_id && decide (s < o.created_at)))
      else
        sortById (st.outputs.filter (fun o => o.job_id == job_id))
  | none => sortById (st.outputs.filter (fun o => o.job_id == job_id))

/-- The two pipes `_read_stream` drains; each captured line is stored with
the corresponding source tag. -/
inductive StreamSrc where
  | stdout
  | stderr
deriving DecidableEq

/-- The source string `_read_stream` writes for each pipe. -/
def StreamSrc.tag : StreamSrc → String
  | .stdout => "stdout"
  | .stderr => "stderr"

/-- Persist a sequence of captured pipe lines in arrival order, as the two
concurrent `_read_stream` readers do (`self.store.append_output(job_id,
source, text)` per line).  The list is the observed interleaving of the
stdout and stderr streams. -/
def appendLines (st : JobStore) (now : Int) (job_id : Nat)
    (lines : List (StreamSrc × String)) : JobStore :=
  lines.foldl (fun s l => append_output s now job_id l.1.tag l.2) st

/-- Abstraction of what the operating system does for one `run_job` call:
the spawn raises FileNotFoundError (command cannot be located); the spawn
raises PermissionError (command located but not runnable — executable bit
missing); the timeout fires after some lines were streamed but before
both pipes drained and the process exited; or the process runs to
completion, streaming `lines` and exiting with `exitCode`. -/
inductive ProcBehavior where
  | spawnFail
  | spawnNotRunnable
  | timedOut (lines : List (StreamSrc × String))
  | completed (lines : List (StreamSrc × String)) (exitCode : Int)

/-- Process-control actions `run_job` performs, recorded as a trace.
`create_subprocess_exec` succeeding is `spawn`; `proc.kill()` delivers
SIGKILL to the child process only (the subprocess is not started in a new
session and no `os.killpg` call exists anywhere in the module), recorded
as `killProcess`; a process-group kill would be `killProcessGroup`;
`await proc.wait()` is `waitProc`. -/
inductive Effect where
  | spawn
  | killProcess
  | killProcessGroup
  | waitProc
deriving DecidableEq

/-- The f-string `f'ERROR: timeout after {timeout}s, killed process'`. -/
def timeoutMsg (timeout : Option Int) : String :=
  "ERROR: timeout after " ++
    (match timeout with
     | some t => toString t
     | none => "None") ++ "s, killed process"

/-- `str(PermissionError)` for a spawn of a located but non-executable
command, as interpolated by Python. -/
def permissionMsg (cmd : List String) : String :=
  "[Errno 13] Permission denied: \x27" ++ cmd.headD "" ++ "\x27"

/-- `CommandRunner.run_job(job_id, timeout=None)`.  Raises ValueError when
the job does not exist; otherwise marks the job running, then acts on the
abstract process behaviour exactly as the source does on the corresponding
real events, and returns the updated store, the trace of process-control
effects, and the Python return value.  A raised exception is an `.error`
carrying the exception text and the store as mutated so far (the Python
store is shared state, so mutations made before the raise persist): the
only handled spawn exception is FileNotFoundError
(`except FileNotFoundError` at line 205); a PermissionError from
`create_subprocess_exec` propagates to the caller with the job left
marked running and nothing appended. -/
def run_job (st : JobStore) (now : Int) (job_id : Nat)
    (timeout : Option Int) (beh : ProcBehavior) :
    Except (String × JobStore) (JobStore × List Effect × Int) :=
  match get_job st job_id with
  | none => .error ("no such job", st)
  | some job =>
    -- self.store.update_job_status(job_id, 'running')
    let st := update_job_status st now job_id "running" none none
    match beh with
    | .spawnFail =>
        -- FileNotFoundError branch: system line first, then failed/-1.
        let st := append_output st now job_id "system"
          ("ERROR: command not found: " ++ job.command.headD "")
        let st := update_job_status st now job_id "failed" (some (-1)) none
        .ok (st, [], -1)
    | .spawnNotRunnable =>
        -- PermissionError has no handler in run_job: it propagates.
        .error (permissionMsg job.command, st)
    | .timedOut lines =>
        -- asyncio.TimeoutError branch: lines streamed so far were already
        -- persisted by the readers; proc.kill(); await proc.wait(); one
        -- system line; status timeout with exit_code=None.
        let st := appendLines st now job_id lines
        let st := append_output st now job_id "system" (timeoutMsg timeout)
        let st := update_job_status st now job_id "timeout" none none
        .ok (st, [.spawn, .killProcess, .waitProc], -1)
    | .completed lines exitCode =>
        -- Both pipes drained to EOF, then exit_code = await proc.wait();
        -- 'finished' if exit_code == 0 else 'failed'.
        let st := appendLines st now job_id lines
        let st := update_job_status st now job_id
          (if exitCode == 0 then "finished" else "failed") (some exitCode) none
        .ok (st, [.spawn, .waitProc], exitCode)

/-- One port entry produced by the `nmap_xml` analyzer:
`{'port': int(portnum), 'state': state, 'service': service}`. -/
structure Port where
  port : Int
  state : String
  service : Option String
deriving DecidableEq

/-- One host entry produced by the `nmap_xml` analyzer:
`{'ip': ip, 'ports': ports}`; `ip` may be None. -/
structure Host where
  ip : Option String
  ports : List Port
deriving DecidableEq

/-- One validated-credential item produced by the `crackmapexec_json`
analyzer: `{'ip': obj.get('target'), 'username': auth.get('username'),
'password': auth.get('password')}` — each field may be None. -/
structure Cred where
  ip : Option String
  username : Option String
  password : Option String
deriving DecidableEq

/-- One record of the `SessionStore`:
`{type, source_job, details, first_seen}`. -/
structure Session where
  type : String
  source_job : Nat
  details : Value
  first_seen : Int

/-- `SessionStore.add_session`: `session.setdefault('first_seen',
time.time())` then append.  All sessions created by `_apply_rules` lack
`first_seen`, so it is set to the current time. -/
def add_session (ss : List Session) (now : Int) (type : String)
    (source_job : Nat) (details : Value) : List Session :=
  ss ++ [{ type := type, source_job := source_job, details := details,
           first_seen := now }]

/-- Value of an optional string inside a stored JSON structure:
Python None serialises as null. -/
def valOfOptStr : Option String → Value
  | some s => Value.str s
  | none => Value.null

/-- An optional string spliced into a command vector; a Python None in the
command list is stored by `json.dumps` as null. -/
def optStr : Option String → String
  | some s => s
  | none => "null"

/-- Python repr of an optional string, as interpolated by f-strings. -/
def reprOptStr : Option String → String
  | some s => "\x27" ++ s ++ "\x27"
  | none => "None"

/-- Python repr of a credential dict, as interpolated by
`f'Valid credential found: \x7bcred\x7d'`. -/
def credRepr (c : Cred) : String :=
  "\x7b\x27ip\x27: " ++ reprOptStr c.ip ++ ", \x27username\x27: " ++
    reprOptStr c.username ++ ", \x27password\x27: " ++
    reprOptStr c.password ++ "\x7d"

/-- The credential dict as a JSON-ish value (session `details`). -/
def credToValue (c : Cred) : Value :=
  Value.obj [("ip", valOfOptStr c.ip), ("username", valOfOptStr c.username),
             ("password", valOfOptStr c.password)]

/-- `AutoExploitPolicy`: a single mutable boolean. -/
structure AutoExploitPolicy where
  allow : Bool

/-- The mutable state of `Orchestrator` plus its `SessionStore`:
the shared `JobStore`, the session list, the exploit policy, the
`dependencies` edges (parent id, child id) and the ids handed to
`asyncio.create_task(self._run_and_process(job_id))` — each scheduled
child job re-enters the pipeline asynchronously; we record those ids in
`pending` rather than running them recursively. -/
structure Orch where
  store : JobStore
  sessions : List Session
  auto_exploit : AutoExploitPolicy
  deps : List (Nat × Nat)
  pending : List Nat

/-- `Orchestrator.__init__`: `self.auto_exploit = AutoExploitPolicy(allow=False)`,
empty dependency map; paired with a fresh `SessionStore`. -/
def Orchestrator.init (store : JobStore) : Orch :=
  { store := store, sessions := [], auto_exploit := { allow := false },
    deps := [], pending := [] }

/-- `Orchestrator.set_auto_exploit(allow)`. -/
def set_auto_exploit (o : Orch) (allow : Bool) : Orch :=
  { o with auto_exploit := { allow := allow } }

/-- `Orchestrator.schedule_job(name, command, cwd=None, env=None, meta=None,
parent_job=None)`: creates the child job, records the dependency edge when
`parent_job` is truthy (`if parent_job:` — None and 0 are falsy), and
enqueues the child for asynchronous execution. -/
def schedule_job (o : Orch) (now : Int) (name : String)
    (command : List String) (meta : Option (List (String × Value)))
    (parent_job : Option Nat) : Orch × Nat :=
  let res := create_job o.store now name command none none meta
  let deps :=
    match parent_job with
    | some p => if p ≠ 0 then o.deps ++ [(p, res.2)] else o.deps
    | none => o.deps
  ({ o with store := res.1, deps := deps, pending := o.pending ++ [res.2] },
   res.2)

/-- `Orchestrator._launch_exploits_for_cred(cred, parent_job)`: returns
without scheduling unless target, username and password are all truthy
(`if not (target and username and password): return` — None and the empty
string are falsy); otherwise schedules one psexec job. -/
def launch_exploits_for_cred (o : Orch) (now : Int) (cred : Cred)
    (parent_job : Nat) : Orch :=
  match cred.ip, cred.username, cred.password with
  | some target, some username, some password =>
      if target ≠ "" && username ≠ "" && password ≠ "" then
        let meta : List (String × Value) :=
          [("target", Value.str target), ("triggered_by", Value.int parent_job),
           ("cred", Value.obj [("u", Value.str username)])]
        (schedule_job o now "psexec"
          ["python3", "-m", "impacket.examples.psexec", target, username,
           password] (some meta) (some parent_job)).1
      else o
  | _, _, _ => o

/-- The fixed interesting-service port set `ad_ports = \x7b88, 389, 636,
3268, 445\x7d` of `_apply_rules`. -/
def adPorts : List Int := [88, 389, 636, 3268, 445]

/-- The trigger test of the discovery rule: `ports & ad_ports` is
nonempty, where `ports = \x7bp['port'] for p in host.get('ports', []) if
p['state'] == 'open'\x7d`. -/
def hostOpenPortsHit (host : Host) : Bool :=
  (host.ports.filter (fun p => p.state == "open")).any
    (fun p => adPorts.contains p.port)

/-- The per-host body of the discovery rule in `_apply_rules`: on a
trigger, schedule the fixed batch of five enumeration jobs against the
host, each with `meta = \x7b'target': ip, 'triggered_by': job_id\x7d` and
`parent_job=job_id`. -/
def handleHost (now : Int) (job_id : Nat) (o : Orch) (host : Host) : Orch :=
  let ip := host.ip
  if hostOpenPortsHit host then
    let meta : Option (List (String × Value)) :=
      some [("target", valOfOptStr ip), ("triggered_by", Value.int job_id)]
    let o := (schedule_job o now "enum4linux"
      ["enum4linux-ng", "-a", optStr ip] meta (some job_id)).1
    let o := (schedule_job o now "ldapdomaindump"
      ["ldapdomaindump", optStr ip] meta (some job_id)).1
    let o := (schedule_job o now "nmap_smb_scripts"
      ["nmap", "-p", "445", "--script",
       "smb-os-discovery,smb-enum-shares,smb-enum-users", optStr ip]
      meta (some job_id)).1
    let o := (schedule_job o now "getnpusers"
      ["python3", "-m", "impacket.examples.GetNPUsers", "-no-pass", optStr ip]
      meta (some job_id)).1
    let o := (schedule_job o now "cme_scan"
      ["crackmapexec", "smb", optStr ip, "--shares", "--pass-pol",
       "--local-auth", "--json"] meta (some job_id)).1
    o
  else o

/-- The per-credential body of the validated-credentials rule in
`_apply_rules`: append a `cred` session, record a summary system line,
and — only when the Exploit Gate is enabled — launch exploitation. -/
def handleCred (now : Int) (job_id : Nat) (o : Orch) (cred : Cred) : Orch :=
  let ss := add_session o.sessions now "cred" job_id (credToValue cred)
  let o := { o with sessions := ss }
  let st := append_output o.store now job_id "system"
    ("Valid credential found: " ++ credRepr cred)
  let o := { o with store := st }
  if o.auto_exploit.allow then launch_exploits_for_cred o now cred job_id
  else o

/-- Structured analyzer results, as looked up by `_apply_rules` under the
registry names `nmap_xml`, `impacket_getnp` and `crackmapexec_json`; any
other analyzer's result is an opaque value.  `getnpRes` carries the
`asreps` list of the `\x7b'asreps': [...]\x7d` dict; `cmeRes` carries
`valid_credentials` (default `[]`) and `services`. -/
inductive ARes where
  | nmapHosts (hosts : List Host)
  | getnpRes (asreps : List Value)
  | cmeRes (valid_credentials : List Cred) (services : List Value)
  | other (v : Value)

/-- First rule block of `_apply_rules`: the discovery rule over
`parsed_results.get('nmap_xml')`.  The source's truthiness guard
`if nmap:` is behaviourally equivalent to iterating the possibly-empty
host list. -/
def rulesNmap (now : Int) (job_id : Nat) (parsed : List (String × ARes))
    (o : Orch) : Orch :=
  match parsed.lookup "nmap_xml" with
  | some (ARes.nmapHosts hosts) => hosts.foldl (handleHost now job_id) o
  | _ => o

/-- Second rule block of `_apply_rules`: AS-REP hashes from
`parsed_results.get('impacket_getnp')` — each stored as a `hash` session,
then one summary system line, all guarded by `if asreps:`. -/
def rulesGetnp (now : Int) (job_id : Nat) (parsed : List (String × ARes))
    (o : Orch) : Orch :=
  match parsed.lookup "impacket_getnp" with
  | some (ARes.getnpRes asreps) =>
      if asreps.isEmpty then o
      else
        let o := asreps.foldl (fun o h =>
          { o with sessions := add_session o.sessions now "hash" job_id h }) o
        let st := append_output o.store now job_id "system"
          ("FOUND " ++ toString asreps.length ++
           " AS-REP hashes; stored in sessions")
        { o with store := st }
  | _ => o

/-- Third rule block of `_apply_rules`: validated credentials from
`parsed_results.get('crackmapexec_json')`.  An empty credential list
(or an absent/falsy result) records and schedules nothing, matching the
source's `if cme:` guard. -/
def rulesCme (now : Int) (job_id : Nat) (parsed : List (String × ARes))
    (o : Orch) : Orch :=
  match parsed.lookup "crackmapexec_json" with
  | some (ARes.cmeRes creds _svcs) => creds.foldl (handleCred now job_id) o
  | _ => o

/-- `Orchestrator._apply_rules(job_id, parsed_results)`: the three rule
blocks in source order. -/
def apply_rules (o : Orch) (now : Int) (job_id : Nat)
    (parsed : List (String × ARes)) : Orch :=
  rulesCme now job_id parsed
    (rulesGetnp now job_id parsed (rulesNmap now job_id parsed o))

/-- The port dict as stored in job meta. -/
def Port.toValue (p : Port) : Value :=
  Value.obj [("port", Value.int p.port), ("state", Value.str p.state),
             ("service", valOfOptStr p.service)]

/-- The host dict as stored in job meta. -/
def Host.toValue (h : Host) : Value :=
  Value.obj [("ip", valOfOptStr h.ip),
             ("ports", Value.arr (h.ports.map Port.toValue))]

/-- The analyzer result as the JSON-ish value merged into job meta.  The
`crackmapexec_json` analyzer includes each key only when its list is
nonempty (it returns None when both are empty, covered by the analyzer
returning no result). -/
def ARes.toValue : ARes → Value
  | .nmapHosts hosts => Value.arr (hosts.map Host.toValue)
  | .getnpRes asreps => Value.obj [("asreps", Value.arr asreps)]
  | .cmeRes creds svcs =>
      Value.obj
        ((if creds.isEmpty then [] else
            [("valid_credentials", Value.arr (creds.map credToValue))]) ++
         (if svcs.isEmpty then [] else [("services", Value.arr svcs)]))
  | .other v => v

/-- `meta.setdefault('parsers', \x7b\x7d)[name] = pr` on the job's meta
mapping: reuse the existing `parsers` sub-dict when present, create it
otherwise, and set `name` in it.  (When an operator stored a non-dict
under `parsers`, CPython would raise TypeError at the item assignment;
that arm is modelled as starting from an empty sub-dict and is unreachable
for meta produced by this pipeline.) -/
def metaSetParser (meta : List (String × Value)) (name : String)
    (v : Value) : List (String × Value) :=
  match meta.lookup "parsers" with
  | some (Value.obj d) => setKey meta "parsers" (Value.obj (setKey d name v))
  | _ => setKey meta "parsers" (Value.obj (setKey [] name v))

/-- What one registered analyzer does on a given transcript: raise, or
return a result.  `returns none` covers Python falsy results (None, empty
dict/list), which `if pr:` skips. -/
inductive AnalyzerOutcome where
  | raises (msg : String)
  | returns (r : Option ARes)

/-- A registered analyzer: a function of the job's full ordered output
transcript. -/
def Analyzer : Type := List OutputRec → AnalyzerOutcome

/-- One iteration of the analyzer loop of `_run_and_process` (lines
125-136): run the analyzer on the fixed transcript under try/except; on an
exception append a system line; on a truthy result record it in
`parsed_results` and merge it into the job's meta — note the merge calls
`update_job_status(job_id, job['status'], meta=meta)` with no exit_code
argument. -/
def analyzerStep (now : Int) (job_id : Nat) (outputs : List OutputRec)
    (acc : JobStore × List (String × ARes)) (na : String × Analyzer) :
    JobStore × List (String × ARes) :=
  match na.2 outputs with
  | .raises msg =>
      (append_output acc.1 now job_id "system"
        ("PARSER " ++ na.1 ++ " ERROR: " ++ msg), acc.2)
  | .returns none => acc
  | .returns (some r) =>
      match get_job acc.1 job_id with
      | some job =>
          (update_job_status acc.1 now job_id job.status none
            (some (metaSetParser job.meta na.1 r.toValue)),
           acc.2 ++ [(na.1, r)])
      | none => acc

/-- The analyzer loop of `_run_and_process` (lines 123-136): fetch the
job's full transcript once, then iterate every registered analyzer over
it, accumulating the store mutations and the `parsed_results` mapping. -/
def analyzersRun (now : Int) (job_id : Nat) (st : JobStore)
    (registry : List (String × Analyzer)) :
    JobStore × List (String × ARes) :=
  registry.foldl (analyzerStep now job_id (fetch_outputs st job_id none))
    (st, [])

/-- `Orchestrator._run_and_process(job_id)`: run the job (timeout None);
on an exception from the runner append a system line and force
status=failed, stop; otherwise run the analyzer loop over the job's full
transcript and apply the rule table to the collected results. -/
def run_and_process (o : Orch) (now : Int) (job_id : Nat)
    (beh : ProcBehavior) (registry : List (String × Analyzer)) : Orch :=
  match run_job o.store now job_id none beh with
  | .error e =>
      -- `except Exception as e:` — the store keeps the mutations made
      -- before the raise (e.2), then the error line and failed status
      -- (no exit_code argument) are recorded.
      let st := append_output e.2 now job_id "system"
        ("ERROR during run: " ++ e.1)
      let st := update_job_status st now job_id "failed" none none
      { o with store := st }
  | .ok res =>
      let acc := analyzersRun now job_id res.1 registry
      apply_rules { o with store := acc.1 } now job_id acc.2

/-! ### Basic store lemmas -/

theorem applyUpdate_id (now : Int) (status : String) (ec : Option Int)
    (m : Option (List (String × Value))) (j : Job) :
    (applyUpdate now status ec m j).id = j.id := by
  cases m <;> rfl

theorem find?_map_update (l : List Job) (jid : Nat) (f : Job → Job)
    (hf : ∀ j, (f j).id = j.id) :
    (l.map (fun j => if j.id == jid then f j else j)).find?
        (fun j => j.id == jid) =
      (l.find? (fun j => j.id == jid)).map f := by
  induction l with
  | nil => rfl
  | cons x xs ih =>
      by_cases h : x.id = jid
      · have hx : (x.id == jid) = true := by simpa using h
        have hfx : ((f x).id == jid) = true := by rw [hf x]; exact hx
        simp only [List.map_cons, if_pos hx]
        rw [List.find?_cons_of_pos (p := fun (j : Job) => j.id == jid) _ hfx,
            List.find?_cons_of_pos (p := fun (j : Job) => j.id == jid) _ hx]
        rfl
      · have hx : ¬ ((x.id == jid) = true) := by simpa using h
        simp only [List.map_cons, if_neg hx]
        rw [List.find?_cons_of_neg (p := fun (j : Job) => j.id == jid) _ hx,
            List.find?_cons_of_neg (p := fun (j : Job) => j.id == jid) _ hx, ih]

theorem get_job_update (st : JobStore) (now : Int) (jid : Nat)
    (status : String) (ec : Option Int)
    (m : Option (List (String × Value))) :
    get_job (update_job_status st now jid status ec m) jid =
      (get_job st jid).map (applyUpdate now status ec m) := by
  unfold get_job update_job_status
  exact find?_map_update st.jobs jid _ (applyUpdate_id now status ec m)

theorem get_job_append (st : JobStore) (now : Int) (jid jid' : Nat)
    (source line : String) :
    get_job (append_output st now jid source line) jid' = get_job st jid' :=
  rfl

theorem outputs_update (st : JobStore) (now : Int) (jid : Nat)
    (status : String) (ec : Option Int)
    (m : Option (List (String × Value))) :
    (update_job_status st now jid status ec m).outputs = st.outputs :=
  rfl

/-! ### Claim C10 -/

/-- Claim C10: `fetch_outputs` treats a falsy `since` argument (0, which
embeds Python's `0`/`0.0`) the same as no `since` argument — the
timestamp filter is applied only when `since` is truthy — and in that
case it returns all of the job's output records. -/
theorem C10_falsy_since (st : JobStore) (jid : Nat) :
    fetch_outputs st jid (some 0) = fetch_outputs st jid none := by
  simp [fetch_outputs]

/-! ### Claim C3 -/

/-- The job created for the C3 scenario: meta holds a pre-existing
top-level key `a`. -/
def stC3 : JobStore :=
  (create_job JobStore.empty 1 "t" ["x"] none none
    (some [("a", Value.int 1)])).1

/-- The C3 scenario: update the job's status with a meta mapping that
mentions only the new key `b`. -/
def stC3' : JobStore :=
  update_job_status stC3 7 1 "finished" none (some [("b", Value.int 2)])

/-- Claim C3 counterexample: the claim says the stored meta after
`update_job_status` is the shallow merge of the previous meta with the
new mapping (keys not mentioned keep their previous values).  On the
concrete input — previous meta `\x7b'a': 1\x7d`, new mapping
`\x7b'b': 2\x7d` — the code stores exactly `\x7b'b': 2\x7d`, dropping
`a`, while the shallow merge keeps it; so the claim is false. -/
theorem C3_counterexample :
    (get_job stC3' 1).map Job.meta = some [("b", Value.int 2)] ∧
    mergeShallow [("a", Value.int 1)] [("b", Value.int 2)] =
      [("a", Value.int 1), ("b", Value.int 2)] ∧
    ¬ ((get_job stC3' 1).map Job.meta =
        some (mergeShallow [("a", Value.int 1)] [("b", Value.int 2)])) := by
  refine ⟨rfl, rfl, ?_⟩
  intro h
  rw [show (get_job stC3' 1).map Job.meta = some [("b", Value.int 2)]
        from rfl,
      show mergeShallow [("a", Value.int 1)] [("b", Value.int 2)] =
        [("a", Value.int 1), ("b", Value.int 2)] from rfl] at h
  have hlen := congrArg (fun x => x.map List.length) h
  simp at hlen

/-- Claim C3 amended: for every job and meta mapping passed to
`update_job_status`, the stored meta after the call is exactly the new
mapping — a wholesale replacement, so top-level keys present before but
absent from the new mapping are dropped — and `updated_at` is set to the
current time (status and exit_code are also written from the
parameters). -/
theorem C3_meta_replaced (st : JobStore) (now : Int) (jid : Nat)
    (status : String) (ec : Option Int) (m : List (String × Value))
    (j : Job) (h : get_job st jid = some j) :
    get_job (update_job_status st now jid status ec (some m)) jid =
      some { j with status := status, exit_code := ec, updated_at := now,
                    meta := m } := by
  rw [get_job_update, h]
  rfl

/-- Claim C3 amended, witness: the concrete C3 scenario evaluated. -/
theorem C3_meta_replaced_witness :
    get_job stC3' 1 =
      some { id := 1, created_at := 1, updated_at := 7, name := "t",
             command := ["x"], cwd := "", env := [], status := "finished",
             exit_code := none, meta := [("b", Value.int 2)] } :=
  C3_meta_replaced stC3 7 1 "finished" none [("b", Value.int 2)]
    { id := 1, created_at := 1, updated_at := 1, name := "t",
      command := ["x"], cwd := "", env := [], status := "pending",
      exit_code := none, meta := [("a", Value.int 1)] } rfl

/-! ### Claim C9 -/

/-- C9 scenario, step 1: a job stored with status finished and
exit_code 0, as the Supervisor leaves it after a successful run. -/
def stC9 : JobStore :=
  update_job_status (create_job JobStore.empty 1 "t" ["x"] none none none).1
    2 1 "finished" (some 0) none

/-- C9 scenario, step 2: a later `update_job_status` call passing meta but
no exit_code, as the Orchestrator's meta-attach does. -/
def stC9' : JobStore :=
  update_job_status stC9 9 1 "finished" none (some [("k", Value.int 3)])

/-- Claim C9: `update_job_status` unconditionally writes its exit_code
parameter into the job row — whatever exit_code was stored before, after
a call passing `ec` the stored exit_code is `ec`; in particular a call
that changes only status or meta (Python default `exit_code=None`, here
`ec = none`) sets the stored exit_code to absent, which is exactly what
the Orchestrator's meta-attach call does after a completed run. -/
theorem C9_exit_code_overwritten (st : JobStore) (now : Int) (jid : Nat)
    (status : String) (m : Option (List (String × Value))) (j : Job)
    (h : get_job st jid = some j) :
    ∀ ec : Option Int,
      (get_job (update_job_status st now jid status ec m) jid).map
          Job.exit_code = some ec := by
  intro ec
  rw [get_job_update, h]
  cases m <;> rfl

/-- Claim C9 witness: a job whose stored exit_code is 0 loses it when
`update_job_status` is called with the default `exit_code=None`. -/
theorem C9_witness :
    (get_job stC9' 1).map Job.exit_code = some none :=
  C9_exit_code_overwritten stC9 9 1 "finished"
    (some [("k", Value.int 3)])
    { id := 1, created_at := 1, updated_at := 2, name := "t",
      command := ["x"], cwd := "", env := [], status := "finished",
      exit_code := some 0, meta := [] } rfl none

/-! ### Sorting lemmas for `fetch_outputs` -/

theorem mem_insertById (o a : OutputRec) (l : List OutputRec) :
    a ∈ insertById o l ↔ a = o ∨ a ∈ l := by
  induction l with
  | nil => simp [insertById]
  | cons x xs ih =>
      by_cases hle : o.id ≤ x.id
      · rw [insertById, if_pos hle]
        simp only [List.mem_cons]
      · rw [insertById, if_neg hle]
        simp only [List.mem_cons, ih]
        tauto

theorem pairwise_insertById (o : OutputRec) (l : List OutputRec)
    (h : l.Pairwise (fun a b => a.id ≤ b.id)) :
    (insertById o l).Pairwise (fun a b => a.id ≤ b.id) := by
  induction l with
  | nil => simp [insertById]
  | cons x xs ih =>
      rw [List.pairwise_cons] at h
      obtain ⟨hx, hxs⟩ := h
      by_cases hle : o.id ≤ x.id
      · rw [insertById, if_pos hle]
        refine List.Pairwise.cons ?_ (List.Pairwise.cons hx hxs)
        intro b hb
        rcases List.mem_cons.mp hb with rfl | hb
        · exact hle
        · exact le_trans hle (hx b hb)
      · rw [insertById, if_neg hle]
        refine List.Pairwise.cons ?_ (ih hxs)
        intro b hb
        rcases (mem_insertById o b xs).mp hb with rfl | hb
        · exact le_of_not_le hle
        · exact hx b hb

theorem sorted_sortById (l : List OutputRec) :
    (sortById l).Pairwise (fun a b => a.id ≤ b.id) := by
  induction l with
  | nil => exact List.Pairwise.nil
  | cons x xs ih => exact pairwise_insertById x (sortById xs) ih

theorem mem_sortById (a : OutputRec) (l : List OutputRec) :
    a ∈ sortById l ↔ a ∈ l := by
  induction l with
  | nil => exact Iff.rfl
  | cons x xs ih =>
      have hstep : sortById (x :: xs) = insertById x (sortById xs) := rfl
      rw [hstep, mem_insertById, ih, List.mem_cons]

/-! ### Claim C8 -/

/-- Claim C8: `fetch_outputs` always returns a job's output records in
non-decreasing id order; and — under the real-clock invariant that every
stored record's `created_at` is positive, which `time.time()` guarantees —
supplying a `since` timestamp yields exactly the job's records created
strictly after that timestamp, still in that order. -/
theorem C8_fetch_outputs_ordered (st : JobStore) (jid : Nat)
    (hpos : ∀ r ∈ st.outputs, 0 < r.created_at) :
    (∀ since, (fetch_outputs st jid since).Pairwise
        (fun a b => a.id ≤ b.id)) ∧
    (∀ s r, r ∈ fetch_outputs st jid (some s) ↔
        (r ∈ st.outputs ∧ r.job_id = jid ∧ s < r.created_at)) := by
  constructor
  · intro since
    cases since with
    | none => exact sorted_sortById _
    | some s =>
        by_cases h : s = 0
        · rw [show fetch_outputs st jid (some s) =
              sortById (st.outputs.filter (fun o => o.job_id == jid))
              by simp [fetch_outputs, h]]
          exact sorted_sortById _
        · rw [show fetch_outputs st jid (some s) =
              sortById (st.outputs.filter
                (fun o => o.job_id == jid && decide (s < o.created_at)))
              by simp [fetch_outputs, h]]
          exact sorted_sortById _
  · intro s r
    by_cases h : s = 0
    · subst h
      rw [show fetch_outputs st jid (some 0) =
            sortById (st.outputs.filter (fun o => o.job_id == jid))
            by simp [fetch_outputs]]
      rw [mem_sortById, List.mem_filter]
      constructor
      · rintro ⟨hmem, hjob⟩
        exact ⟨hmem, by simpa using hjob, hpos r hmem⟩
      · rintro ⟨hmem, hjob, _⟩
        exact ⟨hmem, by simpa using hjob⟩
    · rw [show fetch_outputs st jid (some s) =
            sortById (st.outputs.filter
              (fun o => o.job_id == jid && decide (s < o.created_at)))
            by simp [fetch_outputs, h]]
      rw [mem_sortById, List.mem_filter]
      constructor
      · rintro ⟨hmem, hcond⟩
        refine ⟨hmem, ?_, ?_⟩ <;> simp_all
      · rintro ⟨hmem, hjob, hlt⟩
        refine ⟨hmem, ?_⟩
        simp [hjob, hlt]

/-- A concrete store for the C8 witness: one job with two output records
at timestamps 5 and 10. -/
def stC8 : JobStore :=
  append_output
    (append_output (create_job JobStore.empty 1 "t" ["x"] none none none).1
      5 1 "stdout" "early")
    10 1 "stdout" "late"

/-- Claim C8 witness: the ordering/filter theorem evaluated on the
concrete two-record store. -/
theorem C8_witness :
    (∀ since, (fetch_outputs stC8 1 since).Pairwise
        (fun a b => a.id ≤ b.id)) ∧
    (∀ s r, r ∈ fetch_outputs stC8 1 (some s) ↔
        (r ∈ stC8.outputs ∧ r.job_id = 1 ∧ s < r.created_at)) :=
  C8_fetch_outputs_ordered stC8 1 (by decide)

/-! ### Run projections and stream lemmas -/

/-- The store after a `run_job` call: the returned store, or — when the
call raised — the store as mutated up to the raise. -/
def runStore (st : JobStore) (now : Int) (job_id : Nat)
    (timeout : Option Int) (beh : ProcBehavior) : JobStore :=
  match run_job st now job_id timeout beh with
  | .ok r => r.1
  | .error e => e.2

/-- The process-control effect trace of a `run_job` call. -/
def runEffects (st : JobStore) (now : Int) (job_id : Nat)
    (timeout : Option Int) (beh : ProcBehavior) : List Effect :=
  match run_job st now job_id timeout beh with
  | .ok r => r.2.1
  | .error _ => []

/-- The Python return value of a `run_job` call (none when it raised). -/
def runRet (st : JobStore) (now : Int) (job_id : Nat)
    (timeout : Option Int) (beh : ProcBehavior) : Option Int :=
  match run_job st now job_id timeout beh with
  | .ok r => some r.2.2
  | .error _ => none

/-- Whether a `run_job` call returned normally (did not raise). -/
def runOk (st : JobStore) (now : Int) (job_id : Nat)
    (timeout : Option Int) (beh : ProcBehavior) : Bool :=
  match run_job st now job_id timeout beh with
  | .ok _ => true
  | .error _ => false

/-- The output rows that persisting a stream interleaving appends,
with consecutive ids from `startId`. -/
def mkStreamRecs (startId : Nat) (now : Int) (job_id : Nat) :
    List (StreamSrc × String) → List OutputRec
  | [] => []
  | l :: rest =>
      { id := startId, job_id := job_id, created_at := now,
        source := l.1.tag, line := l.2 } ::
        mkStreamRecs (startId + 1) now job_id rest

theorem appendLines_spec (now : Int) (jid : Nat)
    (lines : List (StreamSrc × String)) : ∀ st : JobStore,
    (appendLines st now jid lines).jobs = st.jobs ∧
    (appendLines st now jid lines).nextJobId = st.nextJobId ∧
    (appendLines st now jid lines).nextOutputId =
      st.nextOutputId + lines.length ∧
    (appendLines st now jid lines).outputs =
      st.outputs ++ mkStreamRecs st.nextOutputId now jid lines := by
  induction lines with
  | nil => intro st; exact ⟨rfl, rfl, rfl, by simp [appendLines, mkStreamRecs]⟩
  | cons l rest ih =>
      intro st
      have hstep : appendLines st now jid (l :: rest) =
          appendLines (append_output st now jid l.1.tag l.2) now jid rest :=
        rfl
      obtain ⟨h1, h2, h3, h4⟩ := ih (append_output st now jid l.1.tag l.2)
      rw [hstep]
      refine ⟨h1, h2, ?_, ?_⟩
      · rw [h3]
        show st.nextOutputId + 1 + rest.length = st.nextOutputId + (rest.length + 1)
        omega
      · rw [h4]
        show st.outputs ++ [_] ++
            mkStreamRecs (st.nextOutputId + 1) now jid rest = _
        rw [List.append_assoc]
        rfl

theorem mkStreamRecs_no_system (now : Int) (jid : Nat)
    (lines : List (StreamSrc × String)) : ∀ startId : Nat,
    (mkStreamRecs startId now jid lines).filter
      (fun r => r.source == "system") = [] := by
  induction lines with
  | nil => intro startId; rfl
  | cons l rest ih =>
      intro startId
      have hsrc : (l.1.tag == "system") = false := by cases l.1 <;> rfl
      show List.filter _ (_ :: _) = []
      rw [List.filter_cons]
      simp only [hsrc]
      exact ih (startId + 1)

theorem get_job_eq_of_jobs (st1 st2 : JobStore) (jid : Nat)
    (h : st1.jobs = st2.jobs) : get_job st1 jid = get_job st2 jid := by
  unfold get_job
  rw [h]

/-! ### Claim C6 -/

/-- A one-job store for the runner theorems. -/
def stRun : JobStore :=
  (create_job JobStore.empty 1 "probe" ["scan-tool", "-a"] none none none).1

/-- The pipeline run on the stRun job when the spawn raises
PermissionError (command located but not runnable). -/
def orchC6 : Orch :=
  run_and_process (Orchestrator.init stRun) 2 1
    ProcBehavior.spawnNotRunnable []

/-- Claim C6 counterexample: the claim covers every run whose command
cannot be located or spawned, but a command that is located and not
runnable raises PermissionError, which `run_job` does not catch (only
`except FileNotFoundError`); driven through the pipeline the job ends
failed with exit_code absent — not -1 — and the single appended system
line is the generic `ERROR during run: [Errno 13] Permission denied: ...`,
which does not contain "command not found".  So the claim, as stated, is
false at this concrete input. -/
theorem C6_counterexample :
    (get_job orchC6.store 1).map (fun x => (x.status, x.exit_code)) =
      some ("failed", none) ∧
    (get_job orchC6.store 1).map (fun x => x.exit_code) ≠
      some (some (-1)) ∧
    orchC6.store.outputs =
      stRun.outputs ++
        [{ id := 1, job_id := 1, created_at := 2, source := "system",
           line := "ERROR during run: " ++
             permissionMsg ["scan-tool", "-a"] }] := by
  refine ⟨rfl, by decide, rfl⟩

/-- Claim C6 amended: when the command cannot be located
(FileNotFoundError), the job's status becomes failed with exit_code=-1,
exactly one system-sourced `ERROR: command not found: ...` line is
appended, no process-control effect occurs (no process created, no pipes
opened) and -1 is returned.  A command that is located but not runnable
(PermissionError) is not handled by the runner: the exception propagates
out of `run_job` with the job left marked running and nothing appended;
when the run is driven through the Orchestrator pipeline, the catch-all
handler leaves the job failed with exit_code absent and appends exactly
one generic `ERROR during run: ...` system line (no "command not
found"). -/
theorem C6_spawn_failure_paths (o : Orch) (now : Int) (jid : Nat)
    (timeout : Option Int) (registry : List (String × Analyzer)) (j : Job)
    (h : get_job o.store jid = some j) :
    ((get_job (runStore o.store now jid timeout ProcBehavior.spawnFail)
        jid).map (fun x => (x.status, x.exit_code)) =
      some ("failed", some (-1)) ∧
     (runStore o.store now jid timeout ProcBehavior.spawnFail).outputs =
       o.store.outputs ++
         [{ id := o.store.nextOutputId, job_id := jid, created_at := now,
            source := "system",
            line := "ERROR: command not found: " ++ j.command.headD "" }] ∧
     runEffects o.store now jid timeout ProcBehavior.spawnFail = [] ∧
     runRet o.store now jid timeout ProcBehavior.spawnFail = some (-1)) ∧
    (runOk o.store now jid timeout ProcBehavior.spawnNotRunnable = false ∧
     (get_job (runStore o.store now jid timeout
        ProcBehavior.spawnNotRunnable) jid).map
        (fun x => (x.status, x.exit_code)) = some ("running", none) ∧
     (runStore o.store now jid timeout
        ProcBehavior.spawnNotRunnable).outputs = o.store.outputs ∧
     runEffects o.store now jid timeout ProcBehavior.spawnNotRunnable =
       []) ∧
    ((get_job (run_and_process o now jid ProcBehavior.spawnNotRunnable
        registry).store jid).map (fun x => (x.status, x.exit_code)) =
      some ("failed", none) ∧
     (run_and_process o now jid ProcBehavior.spawnNotRunnable
        registry).store.outputs =
       o.store.outputs ++
         [{ id := o.store.nextOutputId, job_id := jid, created_at := now,
            source := "system",
            line := "ERROR during run: " ++ permissionMsg j.command }]) := by
  have hrun : run_job o.store now jid timeout ProcBehavior.spawnFail =
      .ok (update_job_status
            (append_output
              (update_job_status o.store now jid "running" none none)
              now jid "system"
              ("ERROR: command not found: " ++ j.command.headD ""))
            now jid "failed" (some (-1)) none, [], -1) := by
    unfold run_job
    rw [h]
  have hrun2 : run_job o.store now jid timeout
      ProcBehavior.spawnNotRunnable =
      .error (permissionMsg j.command,
        update_job_status o.store now jid "running" none none) := by
    unfold run_job
    rw [h]
  have hrun3 : run_job o.store now jid none
      ProcBehavior.spawnNotRunnable =
      .error (permissionMsg j.command,
        update_job_status o.store now jid "running" none none) := by
    unfold run_job
    rw [h]
  refine ⟨⟨?_, ?_, ?_, ?_⟩, ⟨?_, ?_, ?_, ?_⟩, ?_, ?_⟩
  · show (get_job (runStore o.store now jid timeout ProcBehavior.spawnFail)
        jid).map (fun x => (x.status, x.exit_code)) =
      some ("failed", some (-1))
    unfold runStore
    rw [hrun]
    rw [get_job_update, get_job_append, get_job_update, h]
    rfl
  · unfold runStore
    rw [hrun]
    rfl
  · unfold runEffects
    rw [hrun]
  · unfold runRet
    rw [hrun]
  · unfold runOk
    rw [hrun2]
  · show (get_job (runStore o.store now jid timeout
        ProcBehavior.spawnNotRunnable) jid).map
        (fun x => (x.status, x.exit_code)) = some ("running", none)
    unfold runStore
    rw [hrun2]
    rw [get_job_update, h]
    rfl
  · unfold runStore
    rw [hrun2]
    rfl
  · unfold runEffects
    rw [hrun2]
  · show (get_job (run_and_process o now jid ProcBehavior.spawnNotRunnable
        registry).store jid).map (fun x => (x.status, x.exit_code)) =
      some ("failed", none)
    unfold run_and_process
    rw [hrun3]
    show (get_job (update_job_status
        (append_output (update_job_status o.store now jid "running" none
          none) now jid "system"
          ("ERROR during run: " ++ permissionMsg j.command))
        now jid "failed" none none) jid).map
        (fun x => (x.status, x.exit_code)) = some ("failed", none)
    rw [get_job_update, get_job_append, get_job_update, h]
    rfl
  · unfold run_and_process
    rw [hrun3]
    rfl

/-- Claim C6 amended, witness: both spawn-failure paths evaluated on the
concrete one-job store. -/
theorem C6_witness :
    ((get_job (runStore stRun 2 1 none ProcBehavior.spawnFail) 1).map
        (fun x => (x.status, x.exit_code)) = some ("failed", some (-1)) ∧
     (runStore stRun 2 1 none ProcBehavior.spawnFail).outputs =
       stRun.outputs ++
         [{ id := 1, job_id := 1, created_at := 2, source := "system",
            line := "ERROR: command not found: " ++
              (["scan-tool", "-a"] : List String).headD "" }] ∧
     runEffects stRun 2 1 none ProcBehavior.spawnFail = [] ∧
     runRet stRun 2 1 none ProcBehavior.spawnFail = some (-1)) ∧
    (runOk stRun 2 1 none ProcBehavior.spawnNotRunnable = false ∧
     (get_job (runStore stRun 2 1 none
        ProcBehavior.spawnNotRunnable) 1).map
        (fun x => (x.status, x.exit_code)) = some ("running", none) ∧
     (runStore stRun 2 1 none ProcBehavior.spawnNotRunnable).outputs =
       stRun.outputs ∧
     runEffects stRun 2 1 none ProcBehavior.spawnNotRunnable = []) ∧
    ((get_job (run_and_process (Orchestrator.init stRun) 2 1
        ProcBehavior.spawnNotRunnable []).store 1).map
        (fun x => (x.status, x.exit_code)) = some ("failed", none) ∧
     (run_and_process (Orchestrator.init stRun) 2 1
        ProcBehavior.spawnNotRunnable []).store.outputs =
       stRun.outputs ++
         [{ id := 1, job_id := 1, created_at := 2, source := "system",
            line := "ERROR during run: " ++
              permissionMsg (["scan-tool", "-a"] : List String) }]) :=
  C6_spawn_failure_paths (Orchestrator.init stRun) 2 1 none []
    { id := 1, created_at := 1, updated_at := 1, name := "probe",
      command := ["scan-tool", "-a"], cwd := "", env := [],
      status := "pending", exit_code := none, meta := [] } rfl

/-! ### Claim C5 -/

/-- Claim C5 counterexample: the claim says that on a timeout "the
process and its process group are forcibly terminated".  On a concrete
timed-out run the effect trace the runner performs contains a kill of the
process only — `proc.kill()` — and no process-group kill (the subprocess
is not started in its own session and `os.killpg` is never invoked), so
the process-group half of the claim is false. -/
theorem C5_counterexample :
    Effect.killProcess ∈ runEffects stRun 2 1 (some 3)
      (ProcBehavior.timedOut []) ∧
    Effect.killProcessGroup ∉ runEffects stRun 2 1 (some 3)
      (ProcBehavior.timedOut []) := by
  constructor <;> decide

/-- Claim C5 amended: when the timeout elapses before both pipes are
drained and the process has exited, the process is forcibly terminated —
the kill targets the process only, no process-group kill is issued — the
job's status becomes timeout with the stored exit_code left absent, and
the appended records are the lines streamed before the kill (none of them
system-sourced) plus exactly one system-sourced line documenting the
timeout. -/
theorem C5_timeout (st : JobStore) (now : Int) (jid : Nat) (t : Int)
    (lines : List (StreamSrc × String)) (j : Job)
    (h : get_job st jid = some j) :
    (get_job (runStore st now jid (some t) (ProcBehavior.timedOut lines))
        jid).map (fun x => (x.status, x.exit_code)) =
      some ("timeout", none) ∧
    (runStore st now jid (some t) (ProcBehavior.timedOut lines)).outputs =
      st.outputs ++ mkStreamRecs st.nextOutputId now jid lines ++
        [{ id := st.nextOutputId + lines.length, job_id := jid,
           created_at := now, source := "system",
           line := timeoutMsg (some t) }] ∧
    (mkStreamRecs st.nextOutputId now jid lines).filter
      (fun r => r.source == "system") = [] ∧
    runEffects st now jid (some t) (ProcBehavior.timedOut lines) =
      [Effect.spawn, Effect.killProcess, Effect.waitProc] := by
  have hspec := appendLines_spec now jid lines
    (update_job_status st now jid "running" none none)
  obtain ⟨hjobs, _, hnext, houts⟩ := hspec
  have hrun : run_job st now jid (some t) (ProcBehavior.timedOut lines) =
      .ok (update_job_status
            (append_output
              (appendLines (update_job_status st now jid "running" none none)
                now jid lines)
              now jid "system" (timeoutMsg (some t)))
            now jid "timeout" none none,
           [Effect.spawn, Effect.killProcess, Effect.waitProc], -1) := by
    unfold run_job
    rw [h]
  refine ⟨?_, ?_, mkStreamRecs_no_system now jid lines st.nextOutputId, ?_⟩
  · unfold runStore
    rw [hrun]
    show (get_job (update_job_status
        (append_output
          (appendLines (update_job_status st now jid "running" none none)
            now jid lines)
          now jid "system" (timeoutMsg (some t)))
        now jid "timeout" none none) jid).map
        (fun x => (x.status, x.exit_code)) = some ("timeout", none)
    rw [get_job_update, get_job_append,
        get_job_eq_of_jobs _ (update_job_status st now jid "running" none none)
          jid hjobs,
        get_job_update, h]
    rfl
  · unfold runStore
    rw [hrun]
    show (update_job_status
        (append_output
          (appendLines (update_job_status st now jid "running" none none)
            now jid lines)
          now jid "system" (timeoutMsg (some t)))
        now jid "timeout" none none).outputs = _
    rw [outputs_update]
    show (appendLines (update_job_status st now jid "running" none none)
        now jid lines).outputs ++ [_] = _
    rw [houts, hnext]
    rfl
  · unfold runEffects
    rw [hrun]

/-- Claim C5 amended, witness: a concrete timed-out run with one streamed
stdout line. -/
theorem C5_witness :
    (get_job (runStore stRun 2 1 (some 3)
        (ProcBehavior.timedOut [(StreamSrc.stdout, "partial")])) 1).map
        (fun x => (x.status, x.exit_code)) = some ("timeout", none) ∧
    (runStore stRun 2 1 (some 3)
        (ProcBehavior.timedOut [(StreamSrc.stdout, "partial")])).outputs =
      stRun.outputs ++
        mkStreamRecs stRun.nextOutputId 2 1 [(StreamSrc.stdout, "partial")] ++
        [{ id := stRun.nextOutputId + 1, job_id := 1, created_at := 2,
           source := "system", line := timeoutMsg (some 3) }] ∧
    (mkStreamRecs stRun.nextOutputId 2 1
        [(StreamSrc.stdout, "partial")]).filter
      (fun r => r.source == "system") = [] ∧
    runEffects stRun 2 1 (some 3)
        (ProcBehavior.timedOut [(StreamSrc.stdout, "partial")]) =
      [Effect.spawn, Effect.killProcess, Effect.waitProc] :=
  C5_timeout stRun 2 1 3 [(StreamSrc.stdout, "partial")]
    { id := 1, created_at := 1, updated_at := 1, name := "probe",
      command := ["scan-tool", "-a"], cwd := "", env := [],
      status := "pending", exit_code := none, meta := [] } rfl

/-! ### Claim C2 -/

/-- The C2 scenario store: one job whose command will exit 0. -/
def stC2 : JobStore :=
  (create_job JobStore.empty 1 "t" ["true"] none none none).1

/-- A registry with one analyzer that returns a (truthy) result on any
transcript, so the Orchestrator attaches it to the job's meta. -/
def regC2 : List (String × Analyzer) :=
  [("probe", fun _ => AnalyzerOutcome.returns (some (ARes.other (Value.str "sig"))))]

/-- The orchestrator state after running the C2 job through the full
pipeline. -/
def orchC2 : Orch :=
  run_and_process (Orchestrator.init stC2) 2 1
    (ProcBehavior.completed [] 0) regC2

/-- Claim C2, evaluated at the failing input: the Supervisor leaves the
job with status finished and exit_code 0 — the biconditional holds right
after the run — but the Orchestrator's meta-attach call
(`update_job_status(job_id, job['status'], meta=meta)`, no exit_code
argument) then overwrites the stored exit_code with NULL while the status
stays finished, so after analyzer results are attached the job has
status=finished with exit_code absent and the claimed biconditional is
violated. -/
theorem C2_biconditional_broken_by_meta_attach :
    (get_job (runStore stC2 2 1 none (ProcBehavior.completed [] 0)) 1).map
        (fun j => (j.status, j.exit_code)) = some ("finished", some 0) ∧
    (get_job orchC2.store 1).map (fun j => (j.status, j.exit_code)) =
      some ("finished", none) := by
  constructor <;> rfl

/-! ### Claim C4 -/

/-- The meta mapping attached to every enumeration job of the discovery
batch: `\x7b'target': ip, 'triggered_by': job_id\x7d`. -/
def enumMeta (ip : Option String) (job_id : Nat) : List (String × Value) :=
  [("target", valOfOptStr ip), ("triggered_by", Value.int job_id)]

/-- The five enumeration jobs of the fixed discovery batch, as the job
records `schedule_job` creates for them starting at id `n`; used only in
the statement of claim C4. -/
def specEnumJobs (n : Nat) (now : Int) (ip : Option String)
    (job_id : Nat) : List Job :=
  [{ id := n, created_at := now, updated_at := now, name := "enum4linux",
     command := ["enum4linux-ng", "-a", optStr ip], cwd := "", env := [],
     status := "pending", exit_code := none, meta := enumMeta ip job_id },
   { id := n + 1, created_at := now, updated_at := now,
     name := "ldapdomaindump", command := ["ldapdomaindump", optStr ip],
     cwd := "", env := [], status := "pending", exit_code := none,
     meta := enumMeta ip job_id },
   { id := n + 2, created_at := now, updated_at := now,
     name := "nmap_smb_scripts",
     command := ["nmap", "-p", "445", "--script",
       "smb-os-discovery,smb-enum-shares,smb-enum-users", optStr ip],
     cwd := "", env := [], status := "pending", exit_code := none,
     meta := enumMeta ip job_id },
   { id := n + 3, created_at := now, updated_at := now, name := "getnpusers",
     command := ["python3", "-m", "impacket.examples.GetNPUsers", "-no-pass",
       optStr ip],
     cwd := "", env := [], status := "pending", exit_code := none,
     meta := enumMeta ip job_id },
   { id := n + 4, created_at := now, updated_at := now, name := "cme_scan",
     command := ["crackmapexec", "smb", optStr ip, "--shares", "--pass-pol",
       "--local-auth", "--json"],
     cwd := "", env := [], status := "pending", exit_code := none,
     meta := enumMeta ip job_id }]

/-- Claim C4: for a discovery (nmap_xml) result listing one host, if the
host's open ports intersect the fixed interesting-service port set
(88, 389, 636, 3268, 445 — containing 445), rule application schedules
exactly the fixed batch of five enumeration jobs against that host, each
recorded as a dependency child of the triggering job; a host with no open
port in the set causes no change at all. -/
theorem C4_discovery_batch (o : Orch) (now : Int) (job_id : Nat)
    (host : Host) (hjid : job_id ≠ 0) :
    (hostOpenPortsHit host = true →
      (apply_rules o now job_id
          [("nmap_xml", ARes.nmapHosts [host])]).store.jobs =
        o.store.jobs ++ specEnumJobs o.store.nextJobId now host.ip job_id ∧
      (apply_rules o now job_id
          [("nmap_xml", ARes.nmapHosts [host])]).deps =
        o.deps ++ [(job_id, o.store.nextJobId),
                   (job_id, o.store.nextJobId + 1),
                   (job_id, o.store.nextJobId + 2),
                   (job_id, o.store.nextJobId + 3),
                   (job_id, o.store.nextJobId + 4)] ∧
      (apply_rules o now job_id
          [("nmap_xml", ARes.nmapHosts [host])]).sessions = o.sessions) ∧
    (hostOpenPortsHit host = false →
      apply_rules o now job_id [("nmap_xml", ARes.nmapHosts [host])] = o) := by
  constructor
  · intro hh
    refine ⟨?_, ?_, ?_⟩ <;>
      simp [apply_rules, rulesNmap, rulesGetnp, rulesCme, handleHost, hh,
        schedule_job, create_job, hjid, specEnumJobs, enumMeta, List.lookup]
  · intro hh
    simp [apply_rules, rulesNmap, rulesGetnp, rulesCme, handleHost, hh,
      List.lookup]

/-- The spec's own discovery scenario: one host with port 445 open and
port 80 open. -/
def hostC4 : Host :=
  { ip := some "10.10.0.7",
    ports := [{ port := 445, state := "open", service := some "microsoft-ds" },
              { port := 80, state := "open", service := some "http" }] }

/-- A small orchestrator state whose store already contains the
triggering discovery job (id 1). -/
def oC4 : Orch :=
  Orchestrator.init (create_job JobStore.empty 1 "nmap-discovery"
    ["nmap", "-oX", "-"] none none none).1

/-- Claim C4 witness: the discovery-batch theorem evaluated on the
concrete host \x7b445 open, 80 open\x7d and triggering job 1. -/
theorem C4_witness :
    hostOpenPortsHit hostC4 = true ∧
    (hostOpenPortsHit hostC4 = true →
      (apply_rules oC4 3 1
          [("nmap_xml", ARes.nmapHosts [hostC4])]).store.jobs =
        oC4.store.jobs ++ specEnumJobs oC4.store.nextJobId 3 hostC4.ip 1 ∧
      (apply_rules oC4 3 1 [("nmap_xml", ARes.nmapHosts [hostC4])]).deps =
        oC4.deps ++ [(1, oC4.store.nextJobId), (1, oC4.store.nextJobId + 1),
                     (1, oC4.store.nextJobId + 2), (1, oC4.store.nextJobId + 3),
                     (1, oC4.store.nextJobId + 4)] ∧
      (apply_rules oC4 3 1
          [("nmap_xml", ARes.nmapHosts [hostC4])]).sessions = oC4.sessions) ∧
    (hostOpenPortsHit hostC4 = false →
      apply_rules oC4 3 1 [("nmap_xml", ARes.nmapHosts [hostC4])] = oC4) :=
  ⟨by decide, C4_discovery_batch oC4 3 1 hostC4 (by decide)⟩

/-! ### Claim C1 -/

/-- The session record rule evaluation appends for one validated
credential. -/
def credSession (now : Int) (job_id : Nat) (c : Cred) : Session :=
  { type := "cred", source_job := job_id, details := credToValue c,
    first_seen := now }

theorem handleCred_fold_gate_off (now : Int) (job_id : Nat)
    (creds : List Cred) : ∀ o : Orch, o.auto_exploit.allow = false →
    (creds.foldl (handleCred now job_id) o).sessions =
        o.sessions ++ creds.map (credSession now job_id) ∧
    (creds.foldl (handleCred now job_id) o).store.jobs = o.store.jobs ∧
    (creds.foldl (handleCred now job_id) o).deps = o.deps ∧
    (creds.foldl (handleCred now job_id) o).pending = o.pending := by
  induction creds with
  | nil => intro o _; exact ⟨by simp, rfl, rfl, rfl⟩
  | cons c rest ih =>
      intro o hoff
      have hstep : (c :: rest).foldl (handleCred now job_id) o =
          rest.foldl (handleCred now job_id) (handleCred now job_id o c) :=
        rfl
      have hc : handleCred now job_id o c =
          { o with
              sessions := add_session o.sessions now "cred" job_id
                (credToValue c),
              store := append_output o.store now job_id "system"
                ("Valid credential found: " ++ credRepr c) } := by
        unfold handleCred
        rw [if_neg (by rw [hoff]; exact Bool.false_ne_true)]
      obtain ⟨h1, h2, h3, h4⟩ :=
        ih (handleCred now job_id o c) (by rw [hc]; exact hoff)
      rw [hstep]
      refine ⟨?_, ?_, ?_, ?_⟩
      · rw [h1, hc]
        simp [add_session, credSession]
      · rw [h2, hc]
        rfl
      · rw [h3, hc]
      · rw [h4, hc]

/-- A validated-credential item with no password field, as the
`crackmapexec_json` analyzer produces when the JSON `authentication`
object reports success without a `password` key. -/
def credC1 : Cred :=
  { ip := some "10.0.0.5", username := some "admin", password := none }

/-- An orchestrator state holding the triggering job (id 1), with the
Exploit Gate explicitly enabled via `set_auto_exploit`. -/
def oC1 : Orch :=
  set_auto_exploit
    (Orchestrator.init (create_job JobStore.empty 1 "cme" ["crackmapexec"]
      none none none).1) true

/-- Claim C1 counterexample: with the Exploit Gate enabled, a
validated-credential item whose password field is absent (`None`) is
appended to the Session Ledger but schedules no exploitation job at all —
`_launch_exploits_for_cred` returns early — so "with the gate enabled
exactly one exploitation follow-up job is scheduled using that
credential" is false for this item. -/
theorem C1_counterexample :
    oC1.auto_exploit.allow = true ∧
    (apply_rules oC1 3 1
        [("crackmapexec_json", ARes.cmeRes [credC1] [])]).store.jobs =
      oC1.store.jobs ∧
    (apply_rules oC1 3 1
        [("crackmapexec_json", ARes.cmeRes [credC1] [])]).pending =
      oC1.pending ∧
    (apply_rules oC1 3 1
        [("crackmapexec_json", ARes.cmeRes [credC1] [])]).sessions =
      oC1.sessions ++ [credSession 3 1 credC1] := by
  exact ⟨rfl, rfl, rfl, rfl⟩

/-- Claim C1 amended: the Exploit Gate defaults to disabled; for every
validated-credential item produced by rule evaluation a session record is
appended to the Session Ledger regardless of the gate and, while the gate
is disabled, no exploitation job is scheduled; with the gate enabled,
exactly one exploitation follow-up job is scheduled using the credential
and parented to the triggering job provided the credential's ip, username
and password are all present and non-empty (a credential missing any of
these schedules no job even with the gate enabled — the
counterexample). -/
theorem C1_exploit_gate (o : Orch) (now : Int) (job_id : Nat)
    (creds : List Cred) (svcs : List Value) (t u p : String)
    (hjid : job_id ≠ 0) (ht : t ≠ "") (hu : u ≠ "") (hp : p ≠ "") :
    (∀ st, (Orchestrator.init st).auto_exploit.allow = false) ∧
    (o.auto_exploit.allow = false →
      (apply_rules o now job_id
          [("crackmapexec_json", ARes.cmeRes creds svcs)]).sessions =
        o.sessions ++ creds.map (credSession now job_id) ∧
      (apply_rules o now job_id
          [("crackmapexec_json", ARes.cmeRes creds svcs)]).store.jobs =
        o.store.jobs ∧
      (apply_rules o now job_id
          [("crackmapexec_json", ARes.cmeRes creds svcs)]).deps = o.deps ∧
      (apply_rules o now job_id
          [("crackmapexec_json", ARes.cmeRes creds svcs)]).pending =
        o.pending) ∧
    (o.auto_exploit.allow = true →
      (apply_rules o now job_id
          [("crackmapexec_json",
            ARes.cmeRes [{ ip := some t, username := some u,
                           password := some p }] svcs)]).sessions =
        o.sessions ++ [credSession now job_id
          { ip := some t, username := some u, password := some p }] ∧
      (apply_rules o now job_id
          [("crackmapexec_json",
            ARes.cmeRes [{ ip := some t, username := some u,
                           password := some p }] svcs)]).store.jobs =
        o.store.jobs ++
          [{ id := o.store.nextJobId, created_at := now, updated_at := now,
             name := "psexec",
             command := ["python3", "-m", "impacket.examples.psexec",
               t, u, p],
             cwd := "", env := [], status := "pending", exit_code := none,
             meta := [("target", Value.str t),
                      ("triggered_by", Value.int job_id),
                      ("cred", Value.obj [("u", Value.str u)])] }] ∧
      (apply_rules o now job_id
          [("crackmapexec_json",
            ARes.cmeRes [{ ip := some t, username := some u,
                           password := some p }] svcs)]).deps =
        o.deps ++ [(job_id, o.store.nextJobId)] ∧
      (apply_rules o now job_id
          [("crackmapexec_json",
            ARes.cmeRes [{ ip := some t, username := some u,
                           password := some p }] svcs)]).pending =
        o.pending ++ [o.store.nextJobId]) := by
  refine ⟨fun _ => rfl, ?_, ?_⟩
  · intro hoff
    have happ : apply_rules o now job_id
        [("crackmapexec_json", ARes.cmeRes creds svcs)] =
        creds.foldl (handleCred now job_id) o := by
      simp [apply_rules, rulesNmap, rulesGetnp, rulesCme, List.lookup]
    rw [happ]
    exact handleCred_fold_gate_off now job_id creds o hoff
  · intro hon
    have happ : apply_rules o now job_id
        [("crackmapexec_json",
          ARes.cmeRes [{ ip := some t, username := some u,
                         password := some p }] svcs)] =
        handleCred now job_id o
          { ip := some t, username := some u, password := some p } := by
      simp [apply_rules, rulesNmap, rulesGetnp, rulesCme, List.lookup]
    rw [happ]
    refine ⟨?_, ?_, ?_, ?_⟩ <;>
      simp [handleCred, hon, launch_exploits_for_cred, ht, hu, hp,
        schedule_job, create_job, hjid, add_session, credSession,
        append_output]

/-- Claim C1 amended, witness: the exploit-gate theorem evaluated at a
concrete state (gate enabled), a concrete credential list and concrete
non-empty credential fields. -/
theorem C1_witness :
    (∀ st, (Orchestrator.init st).auto_exploit.allow = false) ∧
    (oC1.auto_exploit.allow = false →
      (apply_rules oC1 3 1
          [("crackmapexec_json", ARes.cmeRes [credC1] [])]).sessions =
        oC1.sessions ++ [credC1].map (credSession 3 1) ∧
      (apply_rules oC1 3 1
          [("crackmapexec_json", ARes.cmeRes [credC1] [])]).store.jobs =
        oC1.store.jobs ∧
      (apply_rules oC1 3 1
          [("crackmapexec_json", ARes.cmeRes [credC1] [])]).deps =
        oC1.deps ∧
      (apply_rules oC1 3 1
          [("crackmapexec_json", ARes.cmeRes [credC1] [])]).pending =
        oC1.pending) ∧
    (oC1.auto_exploit.allow = true →
      (apply_rules oC1 3 1
          [("crackmapexec_json",
            ARes.cmeRes [{ ip := some "10.0.0.5", username := some "admin",
                           password := some "hunter2" }] [])]).sessions =
        oC1.sessions ++ [credSession 3 1
          { ip := some "10.0.0.5", username := some "admin",
            password := some "hunter2" }] ∧
      (apply_rules oC1 3 1
          [("crackmapexec_json",
            ARes.cmeRes [{ ip := some "10.0.0.5", username := some "admin",
                           password := some "hunter2" }] [])]).store.jobs =
        oC1.store.jobs ++
          [{ id := oC1.store.nextJobId, created_at := 3, updated_at := 3,
             name := "psexec",
             command := ["python3", "-m", "impacket.examples.psexec",
               "10.0.0.5", "admin", "hunter2"],
             cwd := "", env := [], status := "pending", exit_code := none,
             meta := [("target", Value.str "10.0.0.5"),
                      ("triggered_by", Value.int 1),
                      ("cred", Value.obj [("u", Value.str "admin")])] }] ∧
      (apply_rules oC1 3 1
          [("crackmapexec_json",
            ARes.cmeRes [{ ip := some "10.0.0.5", username := some "admin",
                           password := some "hunter2" }] [])]).deps =
        oC1.deps ++ [(1, oC1.store.nextJobId)] ∧
      (apply_rules oC1 3 1
          [("crackmapexec_json",
            ARes.cmeRes [{ ip := some "10.0.0.5", username := some "admin",
                           password := some "hunter2" }] [])]).pending =
        oC1.pending ++ [oC1.store.nextJobId]) :=
  C1_exploit_gate oC1 3 1 [credC1] [] "10.0.0.5" "admin" "hunter2"
    (by decide) (by decide) (by decide) (by decide)

/-! ### Claim C7: simulation infrastructure

Two stores are `StoreSim`-related when they agree on everything except the
outputs table (jobs and the job-id counter); two orchestrator states are
`OrchSim`-related when additionally sessions, policy, dependency edges and
pending tasks agree.  Neither the analyzer loop nor the rule table ever
reads the outputs table after the transcript has been fetched, so both
preserve these relations. -/

def StoreSim (s1 s2 : JobStore) : Prop :=
  s1.jobs = s2.jobs ∧ s1.nextJobId = s2.nextJobId

def OrchSim (o1 o2 : Orch) : Prop :=
  StoreSim o1.store o2.store ∧ o1.sessions = o2.sessions ∧
  o1.auto_exploit = o2.auto_exploit ∧ o1.deps = o2.deps ∧
  o1.pending = o2.pending

theorem storeSim_append (s1 s2 : JobStore) (h : StoreSim s1 s2)
    (now : Int) (jid : Nat) (src line : String) :
    StoreSim (append_output s1 now jid src line)
      (append_output s2 now jid src line) :=
  ⟨h.1, h.2⟩

theorem storeSim_update (s1 s2 : JobStore) (h : StoreSim s1 s2) (now : Int)
    (jid : Nat) (status : String) (ec : Option Int)
    (m : Option (List (String × Value))) :
    StoreSim (update_job_status s1 now jid status ec m)
      (update_job_status s2 now jid status ec m) := by
  refine ⟨?_, h.2⟩
  show s1.jobs.map _ = s2.jobs.map _
  rw [h.1]

theorem storeSim_create (s1 s2 : JobStore) (h : StoreSim s1 s2) (now : Int)
    (name : String) (cmd : List String) (cwd : Option String)
    (env : Option (List (String × String)))
    (meta : Option (List (String × Value))) :
    StoreSim (create_job s1 now name cmd cwd env meta).1
        (create_job s2 now name cmd cwd env meta).1 ∧
    (create_job s1 now name cmd cwd env meta).2 =
      (create_job s2 now name cmd cwd env meta).2 := by
  refine ⟨⟨?_, ?_⟩, ?_⟩ <;> simp [create_job, h.1, h.2]

theorem orchSim_schedule (o1 o2 : Orch) (h : OrchSim o1 o2) (now : Int)
    (name : String) (cmd : List String)
    (meta : Option (List (String × Value))) (parent : Option Nat) :
    OrchSim (schedule_job o1 now name cmd meta parent).1
        (schedule_job o2 now name cmd meta parent).1 ∧
    (schedule_job o1 now name cmd meta parent).2 =
      (schedule_job o2 now name cmd meta parent).2 := by
  obtain ⟨hs, hsess, hpol, hdeps, hpend⟩ := h
  obtain ⟨hcr, hid⟩ := storeSim_create o1.store o2.store hs now name cmd
    none none meta
  refine ⟨⟨hcr, hsess, hpol, ?_, ?_⟩, hid⟩
  · cases parent with
    | none => exact hdeps
    | some p =>
        by_cases hp : p = 0 <;>
          simp [schedule_job, hp, hdeps, hid]
  · simp [schedule_job, hpend, hid]

theorem orchSim_launch (o1 o2 : Orch) (h : OrchSim o1 o2) (now : Int)
    (cred : Cred) (parent : Nat) :
    OrchSim (launch_exploits_for_cred o1 now cred parent)
      (launch_exploits_for_cred o2 now cred parent) := by
  rcases cred with ⟨ip, username, password⟩
  rcases ip with _ | t
  · exact h
  rcases username with _ | u
  · exact h
  rcases password with _ | p
  · exact h
  simp only [launch_exploits_for_cred]
  split
  · exact (orchSim_schedule o1 o2 h now _ _ _ _).1
  · exact h

theorem orchSim_handleCred (now : Int) (jid : Nat) (cred : Cred)
    (o1 o2 : Orch) (h : OrchSim o1 o2) :
    OrchSim (handleCred now jid o1 cred) (handleCred now jid o2 cred) := by
  obtain ⟨hs, hsess, hpol, hdeps, hpend⟩ := h
  have h' : OrchSim
      { o1 with sessions := add_session o1.sessions now "cred" jid (credToValue cred), store := append_output o1.store now jid "system" ("Valid credential found: " ++ credRepr cred) }
      { o2 with sessions := add_session o2.sessions now "cred" jid (credToValue cred), store := append_output o2.store now jid "system" ("Valid credential found: " ++ credRepr cred) } :=
    ⟨⟨hs.1, hs.2⟩, by rw [hsess], hpol, hdeps, hpend⟩
  unfold handleCred
  dsimp only
  by_cases hb : o1.auto_exploit.allow = true
  · rw [if_pos hb, if_pos (by rw [← hpol]; exact hb)]
    exact orchSim_launch _ _ h' now cred jid
  · rw [if_neg hb, if_neg (by rw [← hpol]; exact hb)]
    exact h'

theorem orchSim_handleHost (now : Int) (jid : Nat) (host : Host)
    (o1 o2 : Orch) (h : OrchSim o1 o2) :
    OrchSim (handleHost now jid o1 host) (handleHost now jid o2 host) := by
  unfold handleHost
  dsimp only
  by_cases hhit : hostOpenPortsHit host = true
  · rw [if_pos hhit, if_pos hhit]
    exact (orchSim_schedule _ _
      ((orchSim_schedule _ _
        ((orchSim_schedule _ _
          ((orchSim_schedule _ _
            ((orchSim_schedule _ _ h now _ _ _ _).1) now _ _ _ _).1)
          now _ _ _ _).1) now _ _ _ _).1) now _ _ _ _).1
  · rw [if_neg hhit, if_neg hhit]
    exact h

theorem foldl_orchSim {α : Type} (f : Orch → α → Orch)
    (hf : ∀ o1 o2 a, OrchSim o1 o2 → OrchSim (f o1 a) (f o2 a))
    (l : List α) : ∀ o1 o2, OrchSim o1 o2 →
      OrchSim (l.foldl f o1) (l.foldl f o2) := by
  induction l with
  | nil => intro o1 o2 h; exact h
  | cons a rest ih => intro o1 o2 h; exact ih (f o1 a) (f o2 a) (hf o1 o2 a h)

theorem orchSim_rulesNmap (now : Int) (jid : Nat)
    (parsed : List (String × ARes)) (o1 o2 : Orch) (h : OrchSim o1 o2) :
    OrchSim (rulesNmap now jid parsed o1) (rulesNmap now jid parsed o2) := by
  unfold rulesNmap
  cases hl : parsed.lookup "nmap_xml" with
  | none => exact h
  | some r =>
      cases r with
      | nmapHosts hosts =>
          exact foldl_orchSim _
            (fun a b host hh => orchSim_handleHost now jid host a b hh)
            hosts o1 o2 h
      | getnpRes a => exact h
      | cmeRes a b => exact h
      | other v => exact h

theorem orchSim_rulesGetnp (now : Int) (jid : Nat)
    (parsed : List (String × ARes)) (o1 o2 : Orch) (h : OrchSim o1 o2) :
    OrchSim (rulesGetnp now jid parsed o1) (rulesGetnp now jid parsed o2) := by
  unfold rulesGetnp
  cases hl : parsed.lookup "impacket_getnp" with
  | none => exact h
  | some r =>
      cases r with
      | getnpRes asreps =>
          by_cases he : asreps.isEmpty
          · simp only [he, if_true]
            exact h
          · simp only [he, if_false]
            have hy := foldl_orchSim
              (fun o h => { o with sessions := add_session o.sessions now "hash" jid h })
              (fun a b v hh => by
                refine ⟨⟨hh.1.1, hh.1.2⟩, ?_, hh.2.2.1, hh.2.2.2.1,
                  hh.2.2.2.2⟩
                dsimp only
                rw [hh.2.1]) asreps o1 o2 h
            exact ⟨⟨hy.1.1, hy.1.2⟩, hy.2.1, hy.2.2.1, hy.2.2.2.1,
              hy.2.2.2.2⟩
      | nmapHosts a => exact h
      | cmeRes a b => exact h
      | other v => exact h

theorem orchSim_rulesCme (now : Int) (jid : Nat)
    (parsed : List (String × ARes)) (o1 o2 : Orch) (h : OrchSim o1 o2) :
    OrchSim (rulesCme now jid parsed o1) (rulesCme now jid parsed o2) := by
  unfold rulesCme
  cases hl : parsed.lookup "crackmapexec_json" with
  | none => exact h
  | some r =>
      cases r with
      | cmeRes creds svcs =>
          exact foldl_orchSim _
            (fun a b cred hh => orchSim_handleCred now jid cred a b hh)
            creds o1 o2 h
      | nmapHosts a => exact h
      | getnpRes a => exact h
      | other v => exact h

theorem orchSim_apply_rules (now : Int) (jid : Nat)
    (parsed : List (String × ARes)) (o1 o2 : Orch) (h : OrchSim o1 o2) :
    OrchSim (apply_rules o1 now jid parsed) (apply_rules o2 now jid parsed) :=
  orchSim_rulesCme now jid parsed _ _
    (orchSim_rulesGetnp now jid parsed _ _
      (orchSim_rulesNmap now jid parsed _ _ h))


theorem analyzer_fold_sim (now : Int) (jid : Nat) (outs : List OutputRec)
    (registry : List (String × Analyzer)) :
    ∀ (s1 s2 : JobStore) (pr : List (String × ARes)), StoreSim s1 s2 →
      StoreSim (registry.foldl (analyzerStep now jid outs) (s1, pr)).1
          (registry.foldl (analyzerStep now jid outs) (s2, pr)).1 ∧
      (registry.foldl (analyzerStep now jid outs) (s1, pr)).2 =
        (registry.foldl (analyzerStep now jid outs) (s2, pr)).2 := by
  induction registry with
  | nil => intro s1 s2 pr h; exact ⟨h, rfl⟩
  | cons na rest ih =>
      intro s1 s2 pr h
      rw [List.foldl_cons, List.foldl_cons]
      cases hna : na.2 outs with
      | raises msg =>
          have e1 : analyzerStep now jid outs (s1, pr) na =
              (append_output s1 now jid "system"
                ("PARSER " ++ na.1 ++ " ERROR: " ++ msg), pr) := by
            unfold analyzerStep
            rw [hna]
          have e2 : analyzerStep now jid outs (s2, pr) na =
              (append_output s2 now jid "system"
                ("PARSER " ++ na.1 ++ " ERROR: " ++ msg), pr) := by
            unfold analyzerStep
            rw [hna]
          rw [e1, e2]
          exact ih _ _ _ (storeSim_append s1 s2 h now jid "system" _)
      | returns r =>
          cases r with
          | none =>
              have e1 : analyzerStep now jid outs (s1, pr) na = (s1, pr) := by
                unfold analyzerStep
                rw [hna]
              have e2 : analyzerStep now jid outs (s2, pr) na = (s2, pr) := by
                unfold analyzerStep
                rw [hna]
              rw [e1, e2]
              exact ih _ _ _ h
          | some res =>
              have hget : get_job s2 jid = get_job s1 jid :=
                get_job_eq_of_jobs s2 s1 jid h.1.symm
              cases hj : get_job s1 jid with
              | none =>
                  have e1 : analyzerStep now jid outs (s1, pr) na = (s1, pr) := by
                    unfold analyzerStep
                    rw [hna, hj]
                  have e2 : analyzerStep now jid outs (s2, pr) na = (s2, pr) := by
                    unfold analyzerStep
                    rw [hna, hget, hj]
                  rw [e1, e2]
                  exact ih _ _ _ h
              | some job =>
                  have e1 : analyzerStep now jid outs (s1, pr) na =
                      (update_job_status s1 now jid job.status none
                        (some (metaSetParser job.meta na.1 res.toValue)),
                       pr ++ [(na.1, res)]) := by
                    unfold analyzerStep
                    rw [hna, hj]
                  have e2 : analyzerStep now jid outs (s2, pr) na =
                      (update_job_status s2 now jid job.status none
                        (some (metaSetParser job.meta na.1 res.toValue)),
                       pr ++ [(na.1, res)]) := by
                    unfold analyzerStep
                    rw [hna, hget, hj]
                  rw [e1, e2]
                  exact ih _ _ _ (storeSim_update s1 s2 h now jid _ _ _)

/-! ### Outputs-membership monotonicity: every pipeline operation only
appends to the outputs table. -/

theorem mem_out_append (st : JobStore) (now : Int) (jid : Nat)
    (src line : String) (r : OutputRec) (h : r ∈ st.outputs) :
    r ∈ (append_output st now jid src line).outputs :=
  List.mem_append_left _ h

theorem mem_out_launch (o : Orch) (now : Int) (cred : Cred) (parent : Nat)
    (r : OutputRec) (h : r ∈ o.store.outputs) :
    r ∈ (launch_exploits_for_cred o now cred parent).store.outputs := by
  rcases cred with ⟨ip, username, password⟩
  rcases ip with _ | t
  · exact h
  rcases username with _ | u
  · exact h
  rcases password with _ | p
  · exact h
  simp only [launch_exploits_for_cred]
  split
  · exact h
  · exact h

theorem mem_out_handleCred (now : Int) (jid : Nat) (cred : Cred) (o : Orch)
    (r : OutputRec) (h : r ∈ o.store.outputs) :
    r ∈ (handleCred now jid o cred).store.outputs := by
  unfold handleCred
  dsimp only
  split
  · exact mem_out_launch _ now cred jid r
      (mem_out_append o.store now jid "system" _ r h)
  · exact mem_out_append o.store now jid "system" _ r h

theorem mem_out_handleHost (now : Int) (jid : Nat) (host : Host) (o : Orch)
    (r : OutputRec) (h : r ∈ o.store.outputs) :
    r ∈ (handleHost now jid o host).store.outputs := by
  unfold handleHost
  dsimp only
  split
  · exact h
  · exact h

theorem foldl_out_mono {α : Type} (f : Orch → α → Orch)
    (hf : ∀ o a r, r ∈ o.store.outputs → r ∈ (f o a).store.outputs)
    (l : List α) : ∀ (o : Orch) (r : OutputRec),
      r ∈ o.store.outputs → r ∈ (l.foldl f o).store.outputs := by
  induction l with
  | nil => intro o r h; exact h
  | cons a rest ih => intro o r h; exact ih (f o a) r (hf o a r h)

theorem mem_out_rulesNmap (now : Int) (jid : Nat)
    (parsed : List (String × ARes)) (o : Orch) (r : OutputRec)
    (h : r ∈ o.store.outputs) :
    r ∈ (rulesNmap now jid parsed o).store.outputs := by
  unfold rulesNmap
  cases parsed.lookup "nmap_xml" with
  | none => exact h
  | some res =>
      cases res with
      | nmapHosts hosts =>
          exact foldl_out_mono _ (fun o a r h => mem_out_handleHost now jid a o r h) hosts o r h
      | getnpRes a => exact h
      | cmeRes a b => exact h
      | other v => exact h

theorem mem_out_rulesGetnp (now : Int) (jid : Nat)
    (parsed : List (String × ARes)) (o : Orch) (r : OutputRec)
    (h : r ∈ o.store.outputs) :
    r ∈ (rulesGetnp now jid parsed o).store.outputs := by
  unfold rulesGetnp
  cases parsed.lookup "impacket_getnp" with
  | none => exact h
  | some res =>
      cases res with
      | getnpRes asreps =>
          by_cases he : asreps.isEmpty
          · simp only [he, if_true]
            exact h
          · simp only [he, if_false]
            refine mem_out_append _ now jid "system" _ r ?_
            exact foldl_out_mono
              (fun o h => { o with sessions := add_session o.sessions now "hash" jid h })
              (fun o v r h => h) asreps o r h
      | nmapHosts a => exact h
      | cmeRes a b => exact h
      | other v => exact h

theorem mem_out_rulesCme (now : Int) (jid : Nat)
    (parsed : List (String × ARes)) (o : Orch) (r : OutputRec)
    (h : r ∈ o.store.outputs) :
    r ∈ (rulesCme now jid parsed o).store.outputs := by
  unfold rulesCme
  cases parsed.lookup "crackmapexec_json" with
  | none => exact h
  | some res =>
      cases res with
      | cmeRes creds svcs =>
          exact foldl_out_mono _ (fun o a r h => mem_out_handleCred now jid a o r h) creds o r h
      | nmapHosts a => exact h
      | getnpRes a => exact h
      | other v => exact h

theorem mem_out_apply_rules (now : Int) (jid : Nat)
    (parsed : List (String × ARes)) (o : Orch) (r : OutputRec)
    (h : r ∈ o.store.outputs) :
    r ∈ (apply_rules o now jid parsed).store.outputs :=
  mem_out_rulesCme now jid parsed _ r
    (mem_out_rulesGetnp now jid parsed _ r
      (mem_out_rulesNmap now jid parsed o r h))

theorem analyzerStep_out_mono (now : Int) (jid : Nat)
    (outs : List OutputRec) (acc : JobStore × List (String × ARes))
    (na : String × Analyzer) (r : OutputRec) (h : r ∈ acc.1.outputs) :
    r ∈ (analyzerStep now jid outs acc na).1.outputs := by
  unfold analyzerStep
  cases na.2 outs with
  | raises msg => exact mem_out_append acc.1 now jid "system" _ r h
  | returns res =>
      cases res with
      | none => exact h
      | some v =>
          cases get_job acc.1 jid with
          | none => exact h
          | some job => exact h

theorem analyzer_fold_out_mono (now : Int) (jid : Nat)
    (outs : List OutputRec) (registry : List (String × Analyzer)) :
    ∀ (acc : JobStore × List (String × ARes)) (r : OutputRec),
      r ∈ acc.1.outputs →
      r ∈ (registry.foldl (analyzerStep now jid outs) acc).1.outputs := by
  induction registry with
  | nil => intro acc r h; exact h
  | cons na rest ih =>
      intro acc r h
      rw [List.foldl_cons]
      exact ih _ r (analyzerStep_out_mono now jid outs acc na r h)


theorem analyzersRun_isolate (now : Int) (jid : Nat) (st : JobStore)
    (pre post : List (String × Analyzer)) (bn msg : String) (bad : Analyzer)
    (hbad : bad (fetch_outputs st jid none) = AnalyzerOutcome.raises msg) :
    StoreSim (analyzersRun now jid st (pre ++ [(bn, bad)] ++ post)).1
        (analyzersRun now jid st (pre ++ post)).1 ∧
    (analyzersRun now jid st (pre ++ [(bn, bad)] ++ post)).2 =
      (analyzersRun now jid st (pre ++ post)).2 ∧
    (∃ r ∈ (analyzersRun now jid st (pre ++ [(bn, bad)] ++ post)).1.outputs,
        r.job_id = jid ∧ r.source = "system" ∧
        r.line = "PARSER " ++ bn ++ " ERROR: " ++ msg) := by
  unfold analyzersRun
  simp only [List.foldl_append, List.foldl_cons, List.foldl_nil]
  generalize (List.foldl (analyzerStep now jid (fetch_outputs st jid none))
    (st, ([] : List (String × ARes))) pre) = accP
  have estep : analyzerStep now jid (fetch_outputs st jid none) accP
      (bn, bad) =
      (append_output accP.1 now jid "system"
        ("PARSER " ++ bn ++ " ERROR: " ++ msg), accP.2) := by
    unfold analyzerStep
    dsimp only
    rw [hbad]
  rw [estep]
  have hsim := analyzer_fold_sim now jid (fetch_outputs st jid none) post
    (append_output accP.1 now jid "system"
      ("PARSER " ++ bn ++ " ERROR: " ++ msg)) accP.1 accP.2 ⟨rfl, rfl⟩
  refine ⟨hsim.1, hsim.2, ?_⟩
  refine ⟨{ id := accP.1.nextOutputId, job_id := jid, created_at := now,
            source := "system",
            line := "PARSER " ++ bn ++ " ERROR: " ++ msg }, ?_, rfl, rfl, rfl⟩
  refine analyzer_fold_out_mono now jid (fetch_outputs st jid none) post _ _ ?_
  exact List.mem_append_right _ (List.mem_singleton.mpr rfl)

/-! ### Claim C7 -/

/-- Claim C7: an analyzer that raises on a job's transcript is isolated.
With the raising analyzer registered anywhere in the registry
(`pre ++ [(bn, bad)] ++ post`), the pipeline (a) appends a system-sourced
output line naming that analyzer, and (b) produces exactly the same jobs
table — hence the same job meta, status and exit_code, so every other
analyzer's non-empty result is still merged and the terminal status is
unchanged — and the same sessions, dependency edges, pending tasks and
job-id counter as the pipeline run without the raising analyzer. -/
theorem C7_analyzer_isolation (o : Orch) (now : Int) (jid : Nat)
    (beh : ProcBehavior) (pre post : List (String × Analyzer))
    (bn msg : String) (bad : Analyzer)
    (hok : runOk o.store now jid none beh = true)
    (hbad : bad (fetch_outputs (runStore o.store now jid none beh) jid none)
      = AnalyzerOutcome.raises msg) :
    (∃ r ∈ (run_and_process o now jid beh
        (pre ++ [(bn, bad)] ++ post)).store.outputs,
        r.job_id = jid ∧ r.source = "system" ∧
        r.line = "PARSER " ++ bn ++ " ERROR: " ++ msg) ∧
    (run_and_process o now jid beh (pre ++ [(bn, bad)] ++ post)).store.jobs =
      (run_and_process o now jid beh (pre ++ post)).store.jobs ∧
    get_job (run_and_process o now jid beh
        (pre ++ [(bn, bad)] ++ post)).store jid =
      get_job (run_and_process o now jid beh (pre ++ post)).store jid ∧
    (run_and_process o now jid beh (pre ++ [(bn, bad)] ++ post)).sessions =
      (run_and_process o now jid beh (pre ++ post)).sessions ∧
    (run_and_process o now jid beh (pre ++ [(bn, bad)] ++ post)).deps =
      (run_and_process o now jid beh (pre ++ post)).deps ∧
    (run_and_process o now jid beh (pre ++ [(bn, bad)] ++ post)).pending =
      (run_and_process o now jid beh (pre ++ post)).pending := by
  cases hrun : run_job o.store now jid none beh with
  | error e =>
      exfalso
      unfold runOk at hok
      rw [hrun] at hok
      exact Bool.false_ne_true hok
  | ok res =>
      have houts : runStore o.store now jid none beh = res.1 := by
        unfold runStore
        rw [hrun]
      rw [houts] at hbad
      have hiso := analyzersRun_isolate now jid res.1 pre post bn msg bad hbad
      obtain ⟨hsim, hparsed, hmem⟩ := hiso
      have hA : run_and_process o now jid beh (pre ++ [(bn, bad)] ++ post) =
          apply_rules
            { o with store :=
                (analyzersRun now jid res.1 (pre ++ [(bn, bad)] ++ post)).1 }
            now jid (analyzersRun now jid res.1 (pre ++ [(bn, bad)] ++ post)).2 := by
        unfold run_and_process
        rw [hrun]
      have hB : run_and_process o now jid beh (pre ++ post) =
          apply_rules
            { o with store := (analyzersRun now jid res.1 (pre ++ post)).1 }
            now jid (analyzersRun now jid res.1 (pre ++ post)).2 := by
        unfold run_and_process
        rw [hrun]
      rw [hA, hB]
      have hOsim : OrchSim
          { o with store :=
              (analyzersRun now jid res.1 (pre ++ [(bn, bad)] ++ post)).1 }
          { o with store := (analyzersRun now jid res.1 (pre ++ post)).1 } :=
        ⟨hsim, rfl, rfl, rfl, rfl⟩
      rw [hparsed]
      have hfin := orchSim_apply_rules now jid
        (analyzersRun now jid res.1 (pre ++ post)).2 _ _ hOsim
      obtain ⟨⟨hjobs, _⟩, hsess, _, hdeps, hpend⟩ := hfin
      refine ⟨?_, hjobs, get_job_eq_of_jobs _ _ jid hjobs, hsess, hdeps,
        hpend⟩
      obtain ⟨r, hr, hprops⟩ := hmem
      exact ⟨r, mem_out_apply_rules now jid _ _ r hr, hprops⟩

/-- A one-job orchestrator state for the C7 witness. -/
def oC7 : Orch :=
  Orchestrator.init (create_job JobStore.empty 1 "t" ["true"] none none none).1

/-- A well-behaved analyzer that always reports a result. -/
def goodC7 : Analyzer :=
  fun _ => AnalyzerOutcome.returns (some (ARes.other (Value.int 7)))

/-- An analyzer that always raises. -/
def badC7 : Analyzer := fun _ => AnalyzerOutcome.raises "boom"

/-- Claim C7 witness: the isolation theorem evaluated on a concrete
pipeline with one well-behaved analyzer registered before the raising
one. -/
theorem C7_witness :
    (∃ r ∈ (run_and_process oC7 2 1 (ProcBehavior.completed [] 0)
        ([("good", goodC7)] ++ [("bad", badC7)] ++ [])).store.outputs,
        r.job_id = 1 ∧ r.source = "system" ∧
        r.line = "PARSER " ++ "bad" ++ " ERROR: " ++ "boom") ∧
    (run_and_process oC7 2 1 (ProcBehavior.completed [] 0)
        ([("good", goodC7)] ++ [("bad", badC7)] ++ [])).store.jobs =
      (run_and_process oC7 2 1 (ProcBehavior.completed [] 0)
        ([("good", goodC7)] ++ [])).store.jobs ∧
    get_job (run_and_process oC7 2 1 (ProcBehavior.completed [] 0)
        ([("good", goodC7)] ++ [("bad", badC7)] ++ [])).store 1 =
      get_job (run_and_process oC7 2 1 (ProcBehavior.completed [] 0)
        ([("good", goodC7)] ++ [])).store 1 ∧
    (run_and_process oC7 2 1 (ProcBehavior.completed [] 0)
        ([("good", goodC7)] ++ [("bad", badC7)] ++ [])).sessions =
      (run_and_process oC7 2 1 (ProcBehavior.completed [] 0)
        ([("good", goodC7)] ++ [])).sessions ∧
    (run_and_process oC7 2 1 (ProcBehavior.completed [] 0)
        ([("good", goodC7)] ++ [("bad", badC7)] ++ [])).deps =
      (run_and_process oC7 2 1 (ProcBehavior.completed [] 0)
        ([("good", goodC7)] ++ [])).deps ∧
    (run_and_process oC7 2 1 (ProcBehavior.completed [] 0)
        ([("good", goodC7)] ++ [("bad", badC7)] ++ [])).pending =
      (run_and_process oC7 2 1 (ProcBehavior.completed [] 0)
        ([("good", goodC7)] ++ [])).pending :=
  C7_analyzer_isolation oC7 2 1 (ProcBehavior.completed [] 0)
    [("good", goodC7)] [] "bad" "boom" badC7 rfl rfl

end AutoAD
